import Mathlib

/-!
# Verification of the tetoolkit extraction/normalization/validation core

Shallow embedding of the core pipeline of the `tetoolkit` repository:

* `cleaner_config.py` — cleaner-type registry (`get_cleaner_type`);
* `value_cleaner.py`  — value normalization (`clean_date`, `clean_dollar_amount`,
  `clean_percentage`, `clean_decimal`, `clean_string`, `parse_name`, `clean_value`,
  `clean_extractions_dataframe`);
* `extractor.py`      — extraction (`extract_with_pattern`, the per-element pattern
  loop of `extract_from_document`, `extract_name`, `apply_duplicate_mappings`,
  `deduplicate_extractions`);
* `validator.py`      — validation (`check_date_logic`, `check_within_document_gaps`,
  `check_multiple_extractions`, `check_positional_outliers`,
  `check_value_reasonableness`, `validate_extractions`).

Modelling conventions:

* Python strings are Lean `String`s; the handful of regex operations the code
  performs (`re.sub` over a character class, substring tests, `\s+` splitting)
  are implemented directly over `List Char`.
* Python `float` values are modelled as exact decimals `(m, k)` meaning
  `m / 10^k` (the code only ever parses decimal literals and divides by 100 or
  compares; binary rounding of IEEE doubles is not modelled).
* `datetime.strptime` is modelled by the exact token regexes CPython's
  `_strptime` uses for the directives appearing in the source's format lists
  (`%m`, `%d`, `%y`, `%Y`, `%B`, `%b`, literal separators, `\s+` runs), with
  anchored full-string matching and date validation, including the `%y`
  69-pivot (`00–68 → 2000–2068`, `69–99 → 1969–1999`).
* pandas DataFrames are lists of `Rec` structures; `NaN`/missing values are
  `Option.none`.  The `flag_reasons` column (a human-readable mirror of
  `flags`) is not modelled; no claim depends on its content.
-/

/-! ## Python string primitives -/

/-- Python `str.upper` restricted to ASCII (all registry keys/keywords are ASCII). -/
def pyUpper (s : String) : String :=
  ⟨s.data.map Char.toUpper⟩

/-- Python `str.lower` restricted to ASCII. -/
def pyLower (s : String) : String :=
  ⟨s.data.map Char.toLower⟩

/-- Characters Python's `str.strip` / `\s` treat as whitespace (ASCII range). -/
def pyIsSpace (c : Char) : Bool :=
  c = ' ' || c = '\t' || c = '\n' || c = '\r' || c = '\x0b' || c = '\x0c'

/-- Python `str.strip()` (ASCII whitespace). -/
def pyStrip (s : String) : String :=
  ⟨(s.data.dropWhile pyIsSpace).reverse.dropWhile pyIsSpace |>.reverse⟩

/-- `sub.isPrefixOf hay` on character lists. -/
def listIsPrefixOf : List Char → List Char → Bool
  | [], _ => true
  | _ :: _, [] => false
  | a :: as, b :: bs => a = b && listIsPrefixOf as bs

/-- Substring containment on character lists (Python's `sub in hay`). -/
def listContainsSub (sub : List Char) : List Char → Bool
  | [] => listIsPrefixOf sub []
  | c :: cs => listIsPrefixOf sub (c :: cs) || listContainsSub sub cs

/-- Python `sub in hay` for strings. -/
def pyContains (hay sub : String) : Bool :=
  listContainsSub sub.data hay.data

/-- Python `str.split()` (split on whitespace runs, dropping empty parts). -/
def pySplitWs (s : String) : List String :=
  (go s.data [] []).reverse
where
  go : List Char → List Char → List String → List String
    | [], [], acc => acc
    | [], cur, acc => (⟨cur.reverse⟩ : String) :: acc
    | c :: rest, cur, acc =>
      if pyIsSpace c then
        match cur with
        | [] => go rest [] acc
        | _ => go rest [] ((⟨cur.reverse⟩ : String) :: acc)
      else go rest (c :: cur) acc

/-- `re.sub(r'\s+', ' ', s)`: collapse whitespace runs to a single space
(`inRun` tracks whether the previous character was part of a whitespace run). -/
def pyCollapseWs (s : String) : String :=
  ⟨go s.data false⟩
where
  go : List Char → Bool → List Char
    | [], _ => []
    | c :: rest, inRun =>
      if pyIsSpace c then
        if inRun then go rest true else ' ' :: go rest true
      else c :: go rest false

/-- Drop every character satisfying `p` (models `re.sub('[class]', '', s)`). -/
def pyDropChars (p : Char → Bool) (s : String) : String :=
  ⟨s.data.filter (fun c => !(p c))⟩

/-- `', '.join`-style check helper: association-list lookup (Python dict lookup). -/
def alistLookup (k : String) : List (String × String) → Option String
  | [] => none
  | (k', v) :: rest => if k = k' then some v else alistLookup k rest

/-! ## Cleaner registry (`src/cleaner_config.py`) -/

/-- `CLEANER_ASSIGNMENTS` of `cleaner_config.py`, in source order. -/
def CLEANER_ASSIGNMENTS : List (String × String) :=
  [("DOB", "date"), ("DOH", "date"), ("DOTE", "date"), ("DATE", "date"),
   ("EFFECTIVE_DATE", "date"), ("START_DATE", "date"), ("END_DATE", "date"),
   ("APPLICATION_DATE", "date"), ("ISSUE_DATE", "date"), ("EXPIRATION_DATE", "date"),
   ("BIRTH_DATE", "date"), ("HIRE_DATE", "date"), ("TERMINATION_DATE", "date"),
   ("DATE_SIGNED", "date"),
   ("AMOUNT", "dollar"), ("SALARY", "dollar"), ("WAGE", "dollar"),
   ("PAY_RATE", "dollar"), ("BONUS", "dollar"), ("COMMISSION", "dollar"),
   ("BENEFITS", "dollar"), ("COMPENSATION", "dollar"), ("HOURLY_RATE", "dollar"),
   ("ANNUAL_SALARY", "dollar"),
   ("PERCENTAGE", "percentage"), ("INTEREST_RATE", "percentage"),
   ("TAX_RATE", "percentage"), ("DISCOUNT", "percentage"),
   ("NUMBER", "decimal"), ("HOURS", "decimal"), ("DAYS", "decimal"),
   ("WEEKS", "decimal"), ("MONTHS", "decimal"), ("YEARS_DURATION", "decimal"),
   ("QUANTITY", "decimal"),
   ("SSN", "string"), ("EMPLOYEE_ID", "string"), ("STAFF_ID", "string"),
   ("PERSONNEL_ID", "string"), ("PAYROLL_ID", "string"), ("MEMBER_ID", "string"),
   ("CUSTOMER_ID", "string"), ("PARTICIPANT_ID", "string"), ("STUDENT_ID", "string"),
   ("TAX_ID", "string"), ("EIN", "string"), ("DRIVERS_LICENSE", "string"),
   ("PASSPORT", "string"), ("MRN", "string"), ("INSURANCE_ID", "string"),
   ("POLICY_NUMBER", "string"), ("GROUP_NUMBER", "string"), ("BADGE_NUMBER", "string"),
   ("CASE_NUMBER", "string"), ("REFERENCE_NUMBER", "string"),
   ("CONFIRMATION_NUMBER", "string"), ("TRACKING_NUMBER", "string"),
   ("ORDER_NUMBER", "string"), ("TRANSACTION_ID", "string"), ("CLAIM_NUMBER", "string"),
   ("APPLICATION_NUMBER", "string"), ("CERTIFICATE_NUMBER", "string"),
   ("LICENSE_NUMBER", "string"), ("PERMIT_NUMBER", "string"),
   ("REGISTRATION_NUMBER", "string"), ("SERIAL_NUMBER", "string"),
   ("PHONE", "string"), ("FAX", "string"), ("EMAIL", "passthrough"),
   ("ZIP", "string"), ("STATE", "string"),
   ("NAME", "name"), ("FULL_NAME", "name"), ("APPLICANT_NAME", "name"),
   ("EMPLOYEE_NAME", "name"),
   ("URL", "passthrough"), ("ADDRESS", "passthrough"), ("NOTES", "passthrough")]

/-- `KEYWORD_ASSIGNMENTS` of `cleaner_config.py`, in source (dict insertion) order. -/
def KEYWORD_ASSIGNMENTS : List (String × List String) :=
  [("date", ["DATE", "DOB", "DOH", "DOTE", "BIRTH", "HIRE", "TERMINATION",
             "EFFECTIVE", "EXPIRATION", "ISSUE"]),
   ("dollar", ["AMOUNT", "SALARY", "WAGE", "PAY", "BONUS", "COMMISSION",
               "COMPENSATION", "BENEFIT"]),
   ("percentage", ["PERCENT", "PCT", "RATE", "%"]),
   ("decimal", ["NUMBER", "HOURS", "DAYS", "WEEKS", "MONTHS", "QUANTITY", "COUNT"]),
   ("name", ["NAME"]),
   ("string", ["SSN", "PHONE", "ZIP", "ID", "NUMBER", "CODE"])]

/-- Keyword fallback of `get_cleaner_type`: first entry whose keyword list has a
substring hit, else the default `"string"`. -/
def keywordLookup (elementUpper : String) : List (String × List String) → String
  | [] => "string"
  | (t, kws) :: rest =>
    if kws.any (fun kw => pyContains elementUpper kw) then t
    else keywordLookup elementUpper rest

/-- `get_cleaner_type` of `cleaner_config.py`: uppercase, explicit table lookup,
keyword-substring fallback in dict order, default `"string"`. -/
def get_cleaner_type (element : String) : String :=
  let elementUpper := pyUpper element
  match alistLookup elementUpper CLEANER_ASSIGNMENTS with
  | some t => t
  | none => keywordLookup elementUpper KEYWORD_ASSIGNMENTS

/-! ## Exact decimals (model of Python `float` for this code)

The cleaners only ever build floats with `float(<decimal literal>)`, divide by
100, negate, compare, and print.  We model such a value exactly as `m / 10^k`.
Binary-rounding artefacts of IEEE doubles (and the `inf`/`nan` spellings and
digit underscores accepted by Python's `float`) are outside the model. -/

structure Dec where
  m : Int
  k : Nat
deriving Repr, DecidableEq

/-- Rational value of an exact decimal. -/
def Dec.val (d : Dec) : ℚ := (d.m : ℚ) / (10 : ℚ) ^ d.k

/-- Negation (`-x`). -/
def Dec.neg (d : Dec) : Dec := ⟨-d.m, d.k⟩

/-- Division by 100 (`x / 100.0`), exact. -/
def Dec.div100 (d : Dec) : Dec := ⟨d.m, d.k + 2⟩

def isDigitChar (c : Char) : Bool := '0' ≤ c && c ≤ '9'

def digitVal (c : Char) : Nat := c.toNat - '0'.toNat

def digitsToNat (l : List Char) : Nat :=
  l.foldl (fun acc c => acc * 10 + digitVal c) 0

/-- `span isDigitChar`. -/
def takeDigits (l : List Char) : List Char × List Char :=
  (l.takeWhile isDigitChar, l.dropWhile isDigitChar)

/-- Python `float(s)` on a decimal literal
`[sign] (digits [. digits] | . digits) [(e|E) [sign] digits]`, anchored. -/
def pyFloat (s : String) : Option Dec :=
  let l := s.data
  let (sgn, l) :=
    match l with
    | '-' :: rest => ((-1 : Int), rest)
    | '+' :: rest => ((1 : Int), rest)
    | _ => ((1 : Int), l)
  let (ip, l) := takeDigits l
  let (fp, l) :=
    match l with
    | '.' :: rest => takeDigits rest
    | _ => ([], l)
  if ip.isEmpty && fp.isEmpty then none
  else
    let mant : Int := sgn * (digitsToNat (ip ++ fp) : Int)
    let base : Dec := ⟨mant, fp.length⟩
    match l with
    | [] => some base
    | 'e' :: rest => pyFloatExp base rest
    | 'E' :: rest => pyFloatExp base rest
    | _ => none
where
  pyFloatExp (base : Dec) (l : List Char) : Option Dec :=
    let (esgn, l) :=
      match l with
      | '-' :: rest => ((-1 : Int), rest)
      | '+' :: rest => ((1 : Int), rest)
      | _ => ((1 : Int), l)
    let (ed, l) := takeDigits l
    if ed.isEmpty || !l.isEmpty then none
    else
      let e : Int := esgn * (digitsToNat ed : Int)
      if e ≥ 0 then some ⟨base.m * 10 ^ e.toNat, base.k⟩
      else some ⟨base.m, base.k + (-e).toNat⟩

/-- Strip factors of 10 shared by mantissa and scale. -/
def decNormalizeAux : Int → Nat → Dec
  | m, 0 => ⟨m, 0⟩
  | m, k + 1 => if m % 10 = 0 then decNormalizeAux (m / 10) k else ⟨m, k + 1⟩

/-- Strip factors of 10 shared by mantissa and scale. -/
def decNormalize (d : Dec) : Dec := decNormalizeAux d.m d.k

/-- Character for a decimal digit value `< 10`. -/
def digitChar (d : Nat) : Char := Char.ofNat ('0'.toNat + d)

/-- Decimal digits of `n`, least significant first (`fuel ≥ n` suffices). -/
def natDigitsAux : Nat → Nat → List Char
  | 0, _ => []
  | _ + 1, 0 => []
  | fuel + 1, n => digitChar (n % 10) :: natDigitsAux fuel (n / 10)

/-- Decimal digit string of a natural number. -/
def natDigits (n : Nat) : String :=
  if n = 0 then "0" else ⟨(natDigitsAux n n).reverse⟩

/-- Zero-pad a digit string on the left to length `w`. -/
def padLeft (s : String) (w : Nat) : String :=
  ⟨List.replicate (w - s.length) '0'⟩ ++ s

/-- `str(x)` for a Python float holding an exactly-decimal value inside the
fixed-notation window of `repr` (no scientific notation modelled). -/
def pyRepr (d : Dec) : String :=
  let d := decNormalize d
  let sign := if d.m < 0 then "-" else ""
  let digits := natDigits d.m.natAbs
  if d.k = 0 then sign ++ digits ++ ".0"
  else
    let digits := padLeft digits (d.k + 1)
    let cut := digits.length - d.k
    sign ++ ⟨digits.data.take cut⟩ ++ "." ++ ⟨digits.data.drop cut⟩

/-- Round `num / den` (`den > 0`) to the nearest integer, ties to even. -/
def roundHalfEven (num den : Int) : Int :=
  let q := num / den
  let r := num - q * den
  if 2 * r < den then q
  else if 2 * r > den then q + 1
  else if q % 2 = 0 then q else q + 1

/-- `f"{x:.2f}"` on an exact decimal (ties rounded to even; the sign of a
negative value rounding to zero is kept, as for floats). -/
def format2f (d : Dec) : String :=
  let n := roundHalfEven (d.m * 100) (10 ^ d.k)
  let neg := n < 0 || (n = 0 && d.m < 0)
  let a := n.natAbs
  (if neg then "-" else "") ++ natDigits (a / 100) ++ "." ++ padLeft (natDigits (a % 100)) 2

/-! ## Dates: `datetime.strptime`, as used by `clean_date`

Each `%`-directive is translated to CPython `_strptime`'s token regex
(`%m ↦ 1[0-2]|0[1-9]|[1-9]`, `%d ↦ 3[01]|[12]\d|0[1-9]|[1-9]`, `%y ↦ \d\d`,
`%Y ↦ \d\d\d\d`, month names case-insensitively, whitespace runs in a format
to `\s+`), matched left-to-right over the whole string.  In every format of
the source's list a numeric token is followed by a non-digit (separator or
end), so committed ordered-alternative matching coincides with the regex. -/

structure PDate where
  y : Nat
  m : Nat
  d : Nat
deriving Repr, DecidableEq

/-- Gregorian leap year (as `datetime` uses). -/
def isLeap (y : Nat) : Bool :=
  y % 4 = 0 && (y % 100 ≠ 0 || y % 400 = 0)

def daysInMonth (y m : Nat) : Nat :=
  if m = 2 then (if isLeap y then 29 else 28)
  else if m = 4 || m = 6 || m = 9 || m = 11 then 30
  else 31

/-- `datetime(year, month, day)` construction: validates ranges, else raises. -/
def mkDate (y m d : Nat) : Option PDate :=
  if 1 ≤ y && y ≤ 9999 && 1 ≤ m && m ≤ 12 && 1 ≤ d && d ≤ daysInMonth y m then
    some ⟨y, m, d⟩
  else none

/-- `%m`: `1[0-2]|0[1-9]|[1-9]`. -/
def pTokM : List Char → Option (Nat × List Char)
  | c1 :: c2 :: rest =>
    if c1 = '1' && ('0' ≤ c2 && c2 ≤ '2') then some (10 + digitVal c2, rest)
    else if c1 = '0' && ('1' ≤ c2 && c2 ≤ '9') then some (digitVal c2, rest)
    else if '1' ≤ c1 && c1 ≤ '9' then some (digitVal c1, c2 :: rest)
    else none
  | [c1] => if '1' ≤ c1 && c1 ≤ '9' then some (digitVal c1, []) else none
  | [] => none

/-- `%d`: `3[01]|[12]\d|0[1-9]|[1-9]`. -/
def pTokD : List Char → Option (Nat × List Char)
  | c1 :: c2 :: rest =>
    if c1 = '3' && (c2 = '0' || c2 = '1') then some (30 + digitVal c2, rest)
    else if (c1 = '1' || c1 = '2') && isDigitChar c2 then
      some (10 * digitVal c1 + digitVal c2, rest)
    else if c1 = '0' && ('1' ≤ c2 && c2 ≤ '9') then some (digitVal c2, rest)
    else if '1' ≤ c1 && c1 ≤ '9' then some (digitVal c1, c2 :: rest)
    else none
  | [c1] => if '1' ≤ c1 && c1 ≤ '9' then some (digitVal c1, []) else none
  | [] => none

/-- `%Y`: `\d\d\d\d`. -/
def pTokY4 : List Char → Option (Nat × List Char)
  | a :: b :: c :: d :: rest =>
    if isDigitChar a && isDigitChar b && isDigitChar c && isDigitChar d then
      some (digitsToNat [a, b, c, d], rest)
    else none
  | _ => none

/-- `%y`: `\d\d`, then the CPython pivot `00–68 → 2000–2068`, `69–99 → 1969–1999`. -/
def pTokY2 : List Char → Option (Nat × List Char)
  | a :: b :: rest =>
    if isDigitChar a && isDigitChar b then
      let yy := digitsToNat [a, b]
      some (if yy ≤ 68 then 2000 + yy else 1900 + yy, rest)
    else none
  | _ => none

/-- Literal character in a format. -/
def pLit (ch : Char) : List Char → Option (List Char)
  | c :: rest => if c = ch then some rest else none
  | _ => none

/-- `\s+` (a whitespace run in the format string). -/
def pWs1 : List Char → Option (List Char)
  | c :: rest => if pyIsSpace c then some (rest.dropWhile pyIsSpace) else none
  | _ => none

def monthsFull : List String :=
  ["january", "february", "march", "april", "may", "june", "july",
   "august", "september", "october", "november", "december"]

def monthsAbbr : List String :=
  ["jan", "feb", "mar", "apr", "may", "jun", "jul", "aug", "sep", "oct", "nov", "dec"]

/-- Case-insensitively strip `name` (given lowercase) from the front of `l`. -/
def ciPrefixDrop : List Char → List Char → Option (List Char)
  | [], l => some l
  | _ :: _, [] => none
  | a :: as, b :: bs => if a = b.toLower then ciPrefixDrop as bs else none

/-- `%B` / `%b`: first month name (1-based) prefix-matching case-insensitively. -/
def pMonthName (names : List String) (l : List Char) : Option (Nat × List Char) :=
  go names 1
where
  go : List String → Nat → Option (Nat × List Char)
    | [], _ => none
    | n :: ns, i =>
      match ciPrefixDrop n.data l with
      | some rest => some (i, rest)
      | none => go ns (i + 1)

/-- `'%m/%d/%Y'`. -/
def fmt_mdY (l : List Char) : Option (Nat × Nat × Nat) := do
  let (m, l) ← pTokM l
  let l ← pLit '/' l
  let (d, l) ← pTokD l
  let l ← pLit '/' l
  let (y, l) ← pTokY4 l
  if l.isEmpty then some (y, m, d) else none

/-- `'%m/%d/%y'`. -/
def fmt_mdy (l : List Char) : Option (Nat × Nat × Nat) := do
  let (m, l) ← pTokM l
  let l ← pLit '/' l
  let (d, l) ← pTokD l
  let l ← pLit '/' l
  let (y, l) ← pTokY2 l
  if l.isEmpty then some (y, m, d) else none

/-- `'%d/%m/%Y'`. -/
def fmt_dmY (l : List Char) : Option (Nat × Nat × Nat) := do
  let (d, l) ← pTokD l
  let l ← pLit '/' l
  let (m, l) ← pTokM l
  let l ← pLit '/' l
  let (y, l) ← pTokY4 l
  if l.isEmpty then some (y, m, d) else none

/-- `'%d/%m/%y'`. -/
def fmt_dmy (l : List Char) : Option (Nat × Nat × Nat) := do
  let (d, l) ← pTokD l
  let l ← pLit '/' l
  let (m, l) ← pTokM l
  let l ← pLit '/' l
  let (y, l) ← pTokY2 l
  if l.isEmpty then some (y, m, d) else none

/-- `'%Y/%m/%d'`. -/
def fmt_Ymd (l : List Char) : Option (Nat × Nat × Nat) := do
  let (y, l) ← pTokY4 l
  let l ← pLit '/' l
  let (m, l) ← pTokM l
  let l ← pLit '/' l
  let (d, l) ← pTokD l
  if l.isEmpty then some (y, m, d) else none

/-- `'%y/%m/%d'`. -/
def fmt_ymd (l : List Char) : Option (Nat × Nat × Nat) := do
  let (y, l) ← pTokY2 l
  let l ← pLit '/' l
  let (m, l) ← pTokM l
  let l ← pLit '/' l
  let (d, l) ← pTokD l
  if l.isEmpty then some (y, m, d) else none

/-- `'%B %d, %Y'` / `'%b %d, %Y'` (month-name, `\s+`, day, comma, `\s+`, year). -/
def fmt_BdCommaY (names : List String) (l : List Char) : Option (Nat × Nat × Nat) := do
  let (m, l) ← pMonthName names l
  let l ← pWs1 l
  let (d, l) ← pTokD l
  let l ← pLit ',' l
  let l ← pWs1 l
  let (y, l) ← pTokY4 l
  if l.isEmpty then some (y, m, d) else none

/-- `'%B %d %Y'` / `'%b %d %Y'`. -/
def fmt_BdY (names : List String) (l : List Char) : Option (Nat × Nat × Nat) := do
  let (m, l) ← pMonthName names l
  let l ← pWs1 l
  let (d, l) ← pTokD l
  let l ← pWs1 l
  let (y, l) ← pTokY4 l
  if l.isEmpty then some (y, m, d) else none

/-- `'%d %B %Y'` / `'%d %b %Y'`. -/
def fmt_dBY (names : List String) (l : List Char) : Option (Nat × Nat × Nat) := do
  let (d, l) ← pTokD l
  let l ← pWs1 l
  let (m, l) ← pMonthName names l
  let l ← pWs1 l
  let (y, l) ← pTokY4 l
  if l.isEmpty then some (y, m, d) else none

/-- The `formats` list of `clean_date`, in source order. -/
def cleanDateFormats : List (List Char → Option (Nat × Nat × Nat)) :=
  [fmt_mdY, fmt_mdy, fmt_dmY, fmt_dmy, fmt_Ymd, fmt_ymd,
   fmt_BdCommaY monthsFull, fmt_BdCommaY monthsAbbr,
   fmt_BdY monthsFull, fmt_BdY monthsAbbr,
   fmt_dBY monthsFull, fmt_dBY monthsAbbr]

/-- The `for fmt in formats: try strptime` loop: first format that both matches
and yields a constructible date (a `ValueError` moves to the next format). -/
def strptimeFirst (l : List Char) : List (List Char → Option (Nat × Nat × Nat)) → Option PDate
  | [] => none
  | f :: fs =>
    match f l with
    | some (y, m, d) =>
      match mkDate y m d with
      | some p => some p
      | none => strptimeFirst l fs
    | none => strptimeFirst l fs

/-- The separator normalization `re.sub(r'[/\-\.]', '/', date_str)`. -/
def normalizeSeparators (s : String) : String :=
  ⟨s.data.map (fun c => if c = '/' || c = '-' || c = '.' then '/' else c)⟩

def pad2 (n : Nat) : String := padLeft (natDigits n) 2

def pad4 (n : Nat) : String := padLeft (natDigits n) 4

/-- `strftime('%m/%d/%Y')`, zero-padded. -/
def formatMMDDYYYY (p : PDate) : String :=
  pad2 p.m ++ "/" ++ pad2 p.d ++ "/" ++ pad4 p.y

/-- `ValueCleaner.clean_date` of `value_cleaner.py`: strip, normalize
separators, try the format list, shift years above 2027 back a century
(an invalid shifted date raises and is caught, yielding `None`), then format
as zero-padded `MM/DD/YYYY`. -/
def clean_date (raw : String) : Option String :=
  if raw = "" then none
  else
    let dateStr := normalizeSeparators (pyStrip raw)
    match strptimeFirst dateStr.data cleanDateFormats with
    | none => none
    | some p =>
      if p.y > 2027 then
        match mkDate (p.y - 100) p.m p.d with
        | some p' => some (formatMMDDYYYY p')
        | none => none
      else some (formatMMDDYYYY p)

/-! ## Value cleaners (`src/value_cleaner.py`) -/

/-- `ValueCleaner.clean_dollar_amount`: strip `$`/commas/whitespace, record
negativity from `'('` in the original or `'-'` in the stripped string, drop
parentheses, parse as float, negate if flagged, format with two decimals. -/
def clean_dollar_amount (raw : String) : Option String :=
  if raw = "" then none
  else
    let amountStr := pyStrip raw
    let amountStr := pyDropChars (fun c => c = '$' || c = ',' || pyIsSpace c) amountStr
    let isNegative := pyContains raw "(" || pyContains amountStr "-"
    let amountStr := pyDropChars (fun c => c = '(' || c = ')') amountStr
    match pyFloat amountStr with
    | none => none
    | some d => some (format2f (if isNegative then d.neg else d))

/-- `ValueCleaner.clean_percentage`: strip `%`/whitespace, parse as float,
divide by 100, print with `str`. -/
def clean_percentage (raw : String) : Option String :=
  if raw = "" then none
  else
    let pctStr := pyDropChars (fun c => c = '%' || pyIsSpace c) (pyStrip raw)
    match pyFloat pctStr with
    | none => none
    | some d => some (pyRepr d.div100)

/-- `ValueCleaner.clean_decimal`: strip commas/whitespace, parse as float,
print with `str` (precision preserved). -/
def clean_decimal (raw : String) : Option String :=
  if raw = "" then none
  else
    let decStr := pyDropChars (fun c => c = ',' || pyIsSpace c) (pyStrip raw)
    match pyFloat decStr with
    | none => none
    | some d => some (pyRepr d)

/-- `\w` of `re` (ASCII): letters, digits, underscore. -/
def isWordChar (c : Char) : Bool :=
  ('a' ≤ c && c ≤ 'z') || ('A' ≤ c && c ≤ 'Z') || isDigitChar c || c = '_'

/-- `ValueCleaner.clean_string`: drop characters outside `[\w\s\-']`,
uppercase, collapse whitespace, strip; empty result is `None`. -/
def clean_string (raw : String) : Option String :=
  if raw = "" then none
  else
    let v := pyStrip raw
    let cleaned := pyDropChars
      (fun c => !(isWordChar c || pyIsSpace c || c = '-' || c = '\'')) v
    let cleaned := pyUpper cleaned
    let cleaned := pyStrip (pyCollapseWs cleaned)
    if cleaned = "" then none else some cleaned

/-- Split on the first comma: `name_str.split(',', 1)`. -/
def splitFirstComma (s : String) : String × Option String :=
  go s.data []
where
  go : List Char → List Char → String × Option String
    | [], acc => (⟨acc.reverse⟩, none)
    | ',' :: rest, acc => (⟨acc.reverse⟩, some ⟨rest⟩)
    | c :: rest, acc => go rest (c :: acc)

/-- `ValueCleaner.parse_name`: returns the components dict as an ordered
association list (`FNAME` before `LNAME`, with a `B`/`S` prefix derived from
the start anchor). -/
def parse_name (raw : String) (startAnchor : String := "") (reverseOrder : Bool := false) :
    List (String × String) :=
  if raw = "" then []
  else
    let nameStr := pyUpper (pyCollapseWs (pyStrip raw))
    let pfx :=
      if startAnchor ≠ "" then
        let anchorUpper := pyUpper startAnchor
        if pyContains anchorUpper "BENEFICIARY" || pyContains anchorUpper "BENEF" then "B"
        else if pyContains anchorUpper "SPOUSE" then "S"
        else ""
      else ""
    let (firstName, lastName) :=
      if reverseOrder && pyContains nameStr "," then
        let (before, after) := splitFirstComma nameStr
        (pyStrip (after.getD ""), pyStrip before)
      else
        match pySplitWs nameStr with
        | [] => ("", "")
        | [only] => (only, "")
        | p :: rest => (p, " ".intercalate rest)
    (if firstName ≠ "" then [(pfx ++ "FNAME", firstName)] else []) ++
    (if lastName ≠ "" then [(pfx ++ "LNAME", lastName)] else [])

/-- `ValueCleaner.clean_value`: route by `get_cleaner_type`, with the smart
`%`/`$` detection of the `dollar` and `percentage` branches. -/
def clean_value (raw : String) (element : String) (_startAnchor : String := "")
    (_reverseNameOrder : Bool := false) : Option String :=
  if raw = "" then none
  else
    let cleanerType := get_cleaner_type element
    if cleanerType = "date" then clean_date raw
    else if cleanerType = "dollar" then
      if pyContains raw "%" then clean_percentage raw
      else if pyContains raw "$" then clean_dollar_amount raw
      else clean_decimal raw
    else if cleanerType = "percentage" then
      if pyContains raw "%" then clean_percentage raw
      else clean_decimal raw
    else if cleanerType = "decimal" then clean_decimal raw
    else if cleanerType = "name" then some (pyUpper (pyStrip raw))
    else if cleanerType = "passthrough" then some (pyStrip raw)
    else clean_string raw


/-! ## Extraction records (DataFrame rows / extraction dicts) -/

/-- One extraction record (a row of the extraction DataFrame / one of the
dicts built by `extractor.py`).  Missing/`NaN` entries are `none`. -/
structure Rec where
  element : String
  value : Option String := none
  cleaned_value : Option String := none
  extraction_order : Option Nat := none
  extraction_position : Option Int := none
  end_position : Option Int := none
  filename : String := ""
  source : String := ""
  participant_id : Option String := none
  start_anchor : String := ""
  stop_anchor : String := ""
  name_prefix : String := ""
  original_element : Option String := none
  flags : List String := []
  confidence : String := ""
deriving Repr, DecidableEq

/-- One row of `ValueCleaner.clean_extractions_dataframe`'s loop: NAME rows
with a parsable value expand into one row per name component; other rows get
`cleaned_value` from `clean_value`. -/
def cleanExtractionsRow (reverseNameOrder : Bool) (row : Rec) : List Rec :=
  match row.value with
  | some raw =>
    if pyContains (pyUpper row.element) "NAME" && raw ≠ "" then
      match parse_name raw row.start_anchor reverseNameOrder with
      | [] => [{ row with cleaned_value := none }]
      | comps =>
        comps.map (fun (componentName, componentValue) =>
          { row with
              element := componentName
              value := some raw
              cleaned_value := some componentValue })
    else if raw ≠ "" then
      [{ row with cleaned_value := clean_value raw row.element row.start_anchor reverseNameOrder }]
    else [{ row with cleaned_value := none }]
  | none => [{ row with cleaned_value := none }]

/-- `ValueCleaner.clean_extractions_dataframe` (the per-row loop; the
empty-DataFrame early return also yields `[]`). -/
def clean_extractions_dataframe (rows : List Rec) (reverseNameOrder : Bool := false) :
    List Rec :=
  rows.flatMap (cleanExtractionsRow reverseNameOrder)

/-! ## Extractor (`src/extractor.py`)

A compiled regex is abstracted by its `finditer` behavior on a text: the list
of matches in scan order, each carrying the extracted value (first capture
group if the pattern has one, else the whole match — the `match.lastindex`
branch of `extract_with_pattern`) and its character span. -/

/-- One regex match: extracted value, `match.start()`, `match.end()`. -/
structure RawMatch where
  value : String
  start : Int
  stop : Int
deriving Repr, DecidableEq

/-- Abstracted compiled pattern: text ↦ `finditer` matches in scan order. -/
def Pattern := String → List RawMatch

/-- `TextExtractor.extract_with_pattern`: enumerate a pattern's matches,
assigning 1-based `extraction_order` in scan order. -/
def extract_with_pattern (text : String) (pat : Pattern) (elementName : String) :
    List Rec :=
  (pat text).enum.map (fun (order, m) =>
    { element := elementName
      value := some m.value
      extraction_order := some (order + 1)
      extraction_position := some m.start
      end_position := some m.stop })

/-- The per-element pattern loop of `TextExtractor.extract_from_document`
(lines 489–497): try patterns in list order, accumulate, break at the first
pattern with ≥ 1 match. -/
def tryPatternsFirstMatch (text : String) (elementName : String) :
    List Pattern → List Rec
  | [] => []
  | p :: ps =>
    let results := extract_with_pattern text p elementName
    if results.isEmpty then tryPatternsFirstMatch text elementName ps
    else results

/-- Matches of the dynamically built name regex for one anchor pair, with the
captured group already selected (abstracted like `Pattern`). -/
def NameFinder := String → String → String → List RawMatch

/-- Per-pair inner loop of `TextExtractor.extract_name`: keep matches whose
stripped captured span has ≥ 2 characters, numbering them with the running
`extraction_order` counter. -/
def extractNamePair (startAnchor stopAnchor prefixType : String) :
    List RawMatch → Nat → List Rec × Nat
  | [], counter => ([], counter)
  | m :: rest, counter =>
    let nameValue := pyStrip m.value
    if nameValue.length ≥ 2 then
      let (tail, c') := extractNamePair startAnchor stopAnchor prefixType rest (counter + 1)
      ({ element := "NAME"
         value := some nameValue
         extraction_order := some counter
         extraction_position := some m.start
         end_position := some m.stop
         start_anchor := startAnchor
         stop_anchor := stopAnchor
         name_prefix := prefixType } :: tail, c')
    else extractNamePair startAnchor stopAnchor prefixType rest counter

/-- `TextExtractor.extract_name`: pair start/stop anchors by index (`zip`
truncates to the shorter list), default the prefix type to `"Name"`, and keep
one running `extraction_order` counter across all pairs. -/
def extract_name (text : String) (startAnchors stopAnchors : List String)
    (namePrefixes : List String) (find : NameFinder) : List Rec :=
  go ((startAnchors.zip stopAnchors).enum) 1
where
  go : List (Nat × String × String) → Nat → List Rec
    | [], _ => []
    | (idx, sa, so) :: pairs, counter =>
      let prefixType := namePrefixes.getD idx "Name"
      let (recs, c') := extractNamePair sa so prefixType (find sa so text) counter
      recs ++ go pairs c'

/-- `TextExtractor.apply_duplicate_mappings`: rename mapped elements with
`extraction_order ≥ 2`, remembering the original element name. -/
def apply_duplicate_mappings (duplicateMappings : List (String × String))
    (extractions : List Rec) : List Rec :=
  if duplicateMappings.isEmpty then extractions
  else
    extractions.map (fun ext =>
      match alistLookup ext.element duplicateMappings, ext.extraction_order with
      | some newElement, some o =>
        if o ≥ 2 then
          { ext with element := newElement, original_element := some ext.element }
        else ext
      | _, _ => ext)

/-- Keep the first occurrence of each entry (dict-key insertion order). -/
def dedupKeepFirstAux {α : Type} [DecidableEq α] : List α → List α → List α
  | _, [] => []
  | seen, a :: as =>
    if a ∈ seen then dedupKeepFirstAux seen as
    else a :: dedupKeepFirstAux (a :: seen) as

/-- Keep the first occurrence of each entry (dict-key insertion order). -/
def dedupKeepFirst {α : Type} [DecidableEq α] (l : List α) : List α :=
  dedupKeepFirstAux [] l

/-- Keep the first record for each distinct value (the `unique_values` dict). -/
def dedupByValueAux : List (Option String) → List Rec → List Rec
  | _, [] => []
  | seen, r :: rs =>
    if r.value ∈ seen then dedupByValueAux seen rs
    else r :: dedupByValueAux (r.value :: seen) rs

/-- Keep the first record for each distinct value (the `unique_values` dict). -/
def dedupByValue (l : List Rec) : List Rec := dedupByValueAux [] l

/-- `TextExtractor.deduplicate_extractions`: group by element (keys in first-
occurrence order, groups in original order); a group with no non-null value
keeps its first record, otherwise one record per distinct value (first
occurrence each). -/
def deduplicate_extractions (extractions : List Rec) : List Rec :=
  (dedupKeepFirst (extractions.map (·.element))).flatMap (fun e =>
    let grp := extractions.filter (·.element = e)
    let nonNull := grp.filter (·.value.isSome)
    if nonNull.isEmpty then grp.take 1
    else dedupByValue nonNull)

/-! ## Validator (`src/validator.py`) -/

/-- Validation settings of `ExtractionValidator.__init__` (defaults as in the
source).  `future_cutoff` models `datetime.now() + timedelta(days=
date_future_tolerance_days)` at date granularity. -/
structure VConfig where
  enable_date_logic : Bool := true
  enable_positional_outliers : Bool := true
  enable_within_document_gaps : Bool := true
  enable_value_reasonableness : Bool := true
  positional_outlier_threshold : ℚ := 3
  within_document_gap_threshold : Int := 2000
  future_cutoff : PDate := ⟨2026, 10, 12⟩
deriving DecidableEq

/-- `'%Y-%m-%d'` (second format tried by the validator's `parse_date`). -/
def fmt_YmdDash (l : List Char) : Option (Nat × Nat × Nat) := do
  let (y, l) ← pTokY4 l
  let l ← pLit '-' l
  let (m, l) ← pTokM l
  let l ← pLit '-' l
  let (d, l) ← pTokD l
  if l.isEmpty then some (y, m, d) else none

/-- `ExtractionValidator.parse_date`: `%m/%d/%Y`, else `%Y-%m-%d`, else `None`. -/
def validatorParseDate (dateStr : Option String) : Option PDate :=
  match dateStr with
  | none => none
  | some s =>
    if s = "" then none
    else
      let t := (pyStrip s).data
      match (fmt_mdY t).bind (fun (y, m, d) => mkDate y m d) with
      | some p => some p
      | none => (fmt_YmdDash t).bind (fun (y, m, d) => mkDate y m d)

/-- `datetime` comparison at date granularity. -/
def pdateLt (a b : PDate) : Bool :=
  a.y < b.y || (a.y = b.y && (a.m < b.m || (a.m = b.m && a.d < b.d)))

/-- Element-name keywords marking a date-bearing field. -/
def dateKeywords : List String :=
  ["DATE", "DOB", "DOH", "DOTE", "BIRTH", "HIRE", "TERMINATION"]

/-- The `date_elements` table of `check_date_logic`: per row index, the
uppercased element and parsed `cleaned_value` of date-bearing rows. -/
def dateElements (docRows : List (Nat × Rec)) : List (Nat × String × PDate) :=
  docRows.filterMap (fun (i, r) =>
    let element := pyUpper r.element
    if dateKeywords.any (fun kw => pyContains element kw) then
      (validatorParseDate r.cleaned_value).map (fun p => (i, element, p))
    else none)

/-- The three pairwise rules of `check_date_logic`, in source order, for one
ordered pair of date elements. -/
def dateLogicPairFlags (elem1 : String) (date1 : PDate) (elem2 : String) (date2 : PDate) :
    List String :=
  (if (pyContains elem1 "DOB" || pyContains elem1 "BIRTH") &&
      (pyContains elem2 "DOH" || pyContains elem2 "HIRE") &&
      !pdateLt date1 date2 then ["date_logic_violation"] else []) ++
  (if (pyContains elem1 "DOB" || pyContains elem1 "BIRTH") &&
      (pyContains elem2 "DOTE" || pyContains elem2 "TERMINATION") &&
      !pdateLt date1 date2 then ["date_logic_violation"] else []) ++
  (if (pyContains elem1 "DOH" || pyContains elem1 "HIRE") &&
      (pyContains elem2 "DOTE" || pyContains elem2 "TERMINATION") &&
      !pdateLt date1 date2 then ["date_logic_violation"] else [])

/-- Flags `ExtractionValidator.check_date_logic` attaches to row `i` of a
document group. -/
def checkDateLogicFlags (cfg : VConfig) (docRows : List (Nat × Rec)) (i : Nat) :
    List String :=
  if !cfg.enable_date_logic then []
  else
    let des := dateElements docRows
    match des.find? (fun e => e.1 = i) with
    | none => []
    | some (_, elem1, date1) =>
      des.flatMap (fun (j, elem2, date2) =>
        if j = i then [] else dateLogicPairFlags elem1 date1 elem2 date2)

/-- Sort key of `sort_values('extraction_order')`: missing orders last, ties
broken by original row position (the source's quicksort breaks ties in an
unspecified but value-independent way; no claim depends on tie order). -/
def orderSortKey (ir : Nat × Rec) : Nat × Nat × Nat :=
  (if ir.2.extraction_order.isSome then 0 else 1, ir.2.extraction_order.getD 0, ir.1)

def keyLt (a b : Nat × Nat × Nat) : Bool :=
  a.1 < b.1 || (a.1 = b.1 && (a.2.1 < b.2.1 || (a.2.1 = b.2.1 && a.2.2 < b.2.2)))

def insertSorted (x : Nat × Rec) : List (Nat × Rec) → List (Nat × Rec)
  | [] => [x]
  | y :: ys =>
    if keyLt (orderSortKey y) (orderSortKey x) then y :: insertSorted x ys
    else x :: y :: ys

def sortByOrder : List (Nat × Rec) → List (Nat × Rec)
  | [] => []
  | x :: xs => insertSorted x (sortByOrder xs)

/-- The walk of `check_within_document_gaps`: indices flagged with
`within_document_position_gap` (rows without a position are skipped and do
not update `prev_position`). -/
def gapWalk (threshold : Int) : List (Nat × Rec) → Option Int → List Nat
  | [], _ => []
  | (i, r) :: rest, prev =>
    match r.extraction_position with
    | none => gapWalk threshold rest prev
    | some pos =>
      (match prev with
       | some pp => if ((pos - pp).natAbs : Int) > threshold then [i] else []
       | none => []) ++ gapWalk threshold rest (some pos)

/-- Flags `ExtractionValidator.check_within_document_gaps` attaches to row `i`. -/
def checkGapFlags (cfg : VConfig) (docRows : List (Nat × Rec)) (i : Nat) : List String :=
  if !cfg.enable_within_document_gaps then []
  else if (gapWalk cfg.within_document_gap_threshold (sortByOrder docRows) none).contains i
  then ["within_document_position_gap"]
  else []

/-- `ExtractionValidator.check_multiple_extractions`. -/
def checkMultipleExtractionsFlags (r : Rec) : List String :=
  match r.extraction_order with
  | some o => if o > 1 then ["multiple_extractions"] else []
  | none => []

/-- `ExtractionValidator.check_positional_outliers` together with
`calculate_positional_statistics`: group positions by `(source, element)`,
require ≥ 5 observations, flag when the z-score exceeds the threshold.  The
z-score test `|pos - mean| / std > t` (sample std, `std > 0`) is expressed
square-free as `(pos - mean)^2 * (n-1) > t^2 * Σ(x-mean)^2`, equivalent for
the nonnegative thresholds the config admits. -/
def checkPositionalOutlierFlags (cfg : VConfig) (allRows : List Rec) (r : Rec) :
    List String :=
  if !cfg.enable_positional_outliers then []
  else
    match r.extraction_position with
    | none => []
    | some pos =>
      let positions := (allRows.filter (fun x =>
        x.source = r.source && x.element = r.element)).filterMap (·.extraction_position)
      if positions.length ≥ 5 then
        let n : ℚ := positions.length
        let mean : ℚ := (positions.map (fun p => (p : ℚ))).sum / n
        let ssq : ℚ := (positions.map (fun p => ((p : ℚ) - mean) ^ 2)).sum
        if ssq > 0 ∧
            ((pos : ℚ) - mean) ^ 2 * (n - 1) > cfg.positional_outlier_threshold ^ 2 * ssq
        then ["positional_outlier"] else []
      else []

/-- The 11 blacklisted SSN strings of `check_value_reasonableness`. -/
def invalidSsnPatterns : List String :=
  ["000000000", "123456789", "111111111", "222222222", "333333333", "444444444",
   "555555555", "666666666", "777777777", "888888888", "999999999"]

/-- Date block of `check_value_reasonableness` (`element` already uppercased). -/
def dateReasonFlags (cutoff : PDate) (element cv : String) : List String :=
  if dateKeywords.any (fun kw => pyContains element kw) then
    match validatorParseDate (some cv) with
    | some p =>
      (if pdateLt cutoff p then ["date_in_future"] else []) ++
      (if (pyContains element "DOB" || pyContains element "BIRTH") && p.y < 1900
       then ["date_too_old"] else [])
    | none => []
  else []

/-- Amount block of `check_value_reasonableness` (`rawValue` is the row's
`value` column, used for the parenthesis test). -/
def amountReasonFlags (element cv : String) (rawValue : Option String) : List String :=
  if ["AMOUNT", "SALARY", "WAGE", "PAY"].any (fun kw => pyContains element kw) then
    match pyFloat (pyDropChars (fun c => c = ',' || c = '$') cv) with
    | some d =>
      (if d.m < 0 && !pyContains (rawValue.getD "") "(" then ["negative_amount"]
       else []) ++
      (if pyContains element "SALARY" || pyContains element "WAGE" then
         if d.val > 10000000 then ["amount_too_high"]
         else if d.m < 0 then ["negative_salary"] else []
       else [])
    | none => []
  else []

/-- Percentage block of `check_value_reasonableness`. -/
def pctReasonFlags (element cv : String) : List String :=
  if pyContains element "PERCENT" || pyContains element "PCT" ||
      pyContains element "RATE" then
    match pyFloat cv with
    | some d =>
      if d.val < 0 ∨ d.val > 1 then ["percentage_out_of_range"] else []
    | none => []
  else []

/-- SSN block of `check_value_reasonableness`. -/
def ssnReasonFlags (element cv : String) : List String :=
  if pyContains element "SSN" then
    let ssnStr := pyDropChars (fun c => c = '-' || c = ' ') cv
    if ssnStr.length ≠ 9 then ["invalid_ssn_length"]
    else if invalidSsnPatterns.contains ssnStr then ["invalid_ssn_pattern"]
    else []
  else []

/-- `ExtractionValidator.check_value_reasonableness`: date, amount,
percentage and SSN rules, flags appended in source order. -/
def checkValueReasonablenessFlags (cfg : VConfig) (r : Rec) : List String :=
  if !cfg.enable_value_reasonableness then []
  else
    let element := pyUpper r.element
    match r.cleaned_value with
    | none => []
    | some cv =>
      dateReasonFlags cfg.future_cutoff element cv ++
      amountReasonFlags element cv r.value ++
      pctReasonFlags element cv ++
      ssnReasonFlags element cv

/-- All flags accumulated on one row by `validate_extractions`, in the order
the source appends them: date logic and gap checks (per document group),
then positional outliers, multiple extractions and value reasonableness. -/
def validateRowFlags (cfg : VConfig) (rows : List Rec) (i : Nat) (r : Rec) :
    List String :=
  let indexed := rows.enum
  let docRows := indexed.filter (fun (_, x) =>
    x.source = r.source && x.filename = r.filename)
  checkDateLogicFlags cfg docRows i ++
  checkGapFlags cfg docRows i ++
  checkPositionalOutlierFlags cfg rows r ++
  checkMultipleExtractionsFlags r ++
  checkValueReasonablenessFlags cfg r

/-- `ExtractionValidator.validate_extractions` (up to the final Excel
stringification of the `flags` column): every row starts `HIGH` with no
flags, the checks append flags, and the last pass sets `confidence = 'LOW'`
for any row whose flag list is non-empty. -/
def validate_extractions (cfg : VConfig) (rows : List Rec) : List Rec :=
  rows.enum.map (fun (i, r) =>
    let flags := validateRowFlags cfg rows i r
    { r with
        flags := flags
        confidence := if flags.length > 0 then "LOW" else "HIGH" })

/-! ## Helper lemmas -/

theorem alistLookup_mem_values {k v : String} :
    ∀ l : List (String × String), alistLookup k l = some v → v ∈ l.map Prod.snd := by
  intro l
  induction l with
  | nil => intro h; simp [alistLookup] at h
  | cons hd tl ih =>
    intro h
    simp only [alistLookup] at h
    by_cases hk : k = hd.1
    · simp [hk] at h
      simp [← h]
    · simp [hk] at h
      simp [ih h]

theorem keywordLookup_mem (u : String) :
    ∀ l : List (String × List String),
      keywordLookup u l = "string" ∨ keywordLookup u l ∈ l.map Prod.fst := by
  intro l
  induction l with
  | nil => left; rfl
  | cons hd tl ih =>
    simp only [keywordLookup]
    by_cases hc : hd.2.any (fun kw => pyContains u kw)
    · right; simp [hc]
    · simp only [hc, if_false]
      rcases ih with h | h
      · left; exact h
      · right; simp [h]

/-! ## C10: cleaner registry lookup -/

/-- The keyword fallback as the claim states it: the fixed keyword groups
tried in the order date, dollar, percentage, decimal, name, string, then the
default `"string"` (stated from the claim, to be compared with
`get_cleaner_type`). -/
def keywordFallbackSpec (u : String) : String :=
  if ["DATE", "DOB", "DOH", "DOTE", "BIRTH", "HIRE", "TERMINATION", "EFFECTIVE",
      "EXPIRATION", "ISSUE"].any (fun kw => pyContains u kw) then "date"
  else if ["AMOUNT", "SALARY", "WAGE", "PAY", "BONUS", "COMMISSION", "COMPENSATION",
      "BENEFIT"].any (fun kw => pyContains u kw) then "dollar"
  else if ["PERCENT", "PCT", "RATE", "%"].any (fun kw => pyContains u kw) then "percentage"
  else if ["NUMBER", "HOURS", "DAYS", "WEEKS", "MONTHS", "QUANTITY",
      "COUNT"].any (fun kw => pyContains u kw) then "decimal"
  else if ["NAME"].any (fun kw => pyContains u kw) then "name"
  else if ["SSN", "PHONE", "ZIP", "ID", "NUMBER", "CODE"].any (fun kw => pyContains u kw)
  then "string"
  else "string"

/-- C10: `get_cleaner_type` is total over the seven cleaner types, depends
only on the uppercased element name, resolves by explicit table first, and
otherwise by the keyword fallback in the fixed order date, dollar,
percentage, decimal, name, string, with default `"string"`. -/
theorem c10_get_cleaner_type_total_and_ordered :
    (∀ e : String, get_cleaner_type e ∈
      ["date", "dollar", "percentage", "decimal", "string", "name", "passthrough"]) ∧
    (∀ e₁ e₂ : String, pyUpper e₁ = pyUpper e₂ →
      get_cleaner_type e₁ = get_cleaner_type e₂) ∧
    (∀ e t, alistLookup (pyUpper e) CLEANER_ASSIGNMENTS = some t →
      get_cleaner_type e = t) ∧
    (∀ e, alistLookup (pyUpper e) CLEANER_ASSIGNMENTS = none →
      get_cleaner_type e = keywordFallbackSpec (pyUpper e)) := by
  have hgct : ∀ e : String, get_cleaner_type e =
      (match alistLookup (pyUpper e) CLEANER_ASSIGNMENTS with
       | some t => t
       | none => keywordLookup (pyUpper e) KEYWORD_ASSIGNMENTS) := fun _ => rfl
  refine ⟨?_, ?_, ?_, ?_⟩
  · intro e
    rw [hgct e]
    cases hl : alistLookup (pyUpper e) CLEANER_ASSIGNMENTS with
    | some t =>
      have hv := alistLookup_mem_values CLEANER_ASSIGNMENTS hl
      have hall : ∀ v ∈ CLEANER_ASSIGNMENTS.map Prod.snd,
          v ∈ ["date", "dollar", "percentage", "decimal", "string", "name",
               "passthrough"] := by decide
      exact hall t hv
    | none =>
      rcases keywordLookup_mem (pyUpper e) KEYWORD_ASSIGNMENTS with h | h
      · rw [h]; decide
      · have hall : ∀ v ∈ KEYWORD_ASSIGNMENTS.map Prod.fst,
            v ∈ ["date", "dollar", "percentage", "decimal", "string", "name",
                 "passthrough"] := by decide
        exact hall _ h
  · intro e₁ e₂ h
    rw [hgct e₁, hgct e₂, h]
  · intro e t h
    rw [hgct e, h]
  · intro e h
    rw [hgct e, h]
    rfl

/-- Witness for C10 at concrete inputs: an explicit-table hit (`"dob"`,
case-insensitively `date`) and a keyword-fallback hit (`"CUSTOM_PAY_X"`,
`dollar` via the `PAY` keyword). -/
theorem c10_witness :
    get_cleaner_type "dob" = "date" ∧ get_cleaner_type "CUSTOM_PAY_X" = "dollar" :=
  ⟨c10_get_cleaner_type_total_and_ordered.2.2.1 "dob" "date" (by decide),
   (c10_get_cleaner_type_total_and_ordered.2.2.2 "CUSTOM_PAY_X" (by decide)).trans (by decide)⟩

/-! ## C1: confidence is LOW iff flags is non-empty -/

/-- C1: every record output by `validate_extractions` has
`confidence = LOW` iff its flag list is non-empty; a record with no flags is
`HIGH`, and the confidence is the pure function `flags = [] ↦ HIGH | _ ↦ LOW`
of the flags. -/
theorem c1_confidence_iff_flags (cfg : VConfig) (rows : List Rec) (r : Rec)
    (hr : r ∈ validate_extractions cfg rows) :
    r.confidence = (if r.flags = [] then "HIGH" else "LOW") ∧
    (r.confidence = "LOW" ↔ r.flags ≠ []) ∧
    (r.flags = [] → r.confidence = "HIGH") := by
  unfold validate_extractions at hr
  obtain ⟨⟨i, r0⟩, hmem, heq⟩ := List.mem_map.mp hr
  subst heq
  dsimp only
  by_cases hF : validateRowFlags cfg rows i r0 = []
  · simp [hF]
  · have hlen : (validateRowFlags cfg rows i r0).length > 0 :=
      List.length_pos.mpr hF
    simp [hF, hlen]

/-- Witness for C1: a concrete one-row batch. -/
theorem c1_witness :
    ∃ r, r ∈ validate_extractions {} [{element := "X"}] ∧
      (r.confidence = "LOW" ↔ r.flags ≠ []) :=
  ⟨_, List.mem_singleton.mpr rfl,
    (c1_confidence_iff_flags {} [{element := "X"}] _ (by decide)).2.1⟩

/-! ## C9: SSN reasonableness flags -/

theorem mem_dateReasonFlags {c : PDate} {e v f : String}
    (h : f ∈ dateReasonFlags c e v) : f = "date_in_future" ∨ f = "date_too_old" := by
  unfold dateReasonFlags at h
  repeat' split at h
  all_goals simp_all

theorem mem_amountReasonFlags {e v : String} {rv : Option String} {f : String}
    (h : f ∈ amountReasonFlags e v rv) :
    f = "negative_amount" ∨ f = "amount_too_high" ∨ f = "negative_salary" := by
  unfold amountReasonFlags at h
  repeat' split at h
  all_goals simp_all
  all_goals tauto

theorem mem_pctReasonFlags {e v f : String} (h : f ∈ pctReasonFlags e v) :
    f = "percentage_out_of_range" := by
  unfold pctReasonFlags at h
  repeat' split at h
  all_goals simp_all

/-- The ten decimal digit characters. -/
def digitChars10 : List Char := ['0', '1', '2', '3', '4', '5', '6', '7', '8', '9']

/-- The SSN blacklist is exactly: the all-same-digit 9-character strings plus
the ascending sequence `123456789`. -/
theorem invalidSsnPatterns_iff (s : String) :
    s ∈ invalidSsnPatterns ↔
      (∃ d ∈ digitChars10, s = ⟨List.replicate 9 d⟩) ∨ s = "123456789" := by
  constructor
  · intro h
    simp only [invalidSsnPatterns, List.mem_cons, List.not_mem_nil, or_false] at h
    rcases h with h | h | h | h | h | h | h | h | h | h | h
    · exact Or.inl ⟨'0', by decide, by rw [h]; rfl⟩
    · exact Or.inr h
    · exact Or.inl ⟨'1', by decide, by rw [h]; rfl⟩
    · exact Or.inl ⟨'2', by decide, by rw [h]; rfl⟩
    · exact Or.inl ⟨'3', by decide, by rw [h]; rfl⟩
    · exact Or.inl ⟨'4', by decide, by rw [h]; rfl⟩
    · exact Or.inl ⟨'5', by decide, by rw [h]; rfl⟩
    · exact Or.inl ⟨'6', by decide, by rw [h]; rfl⟩
    · exact Or.inl ⟨'7', by decide, by rw [h]; rfl⟩
    · exact Or.inl ⟨'8', by decide, by rw [h]; rfl⟩
    · exact Or.inl ⟨'9', by decide, by rw [h]; rfl⟩
  · intro h
    rcases h with ⟨d, hd, rfl⟩ | rfl
    · fin_cases hd <;> decide
    · decide

/-- Every blacklisted SSN string has 9 characters. -/
theorem invalidSsnPatterns_length {s : String} (h : s ∈ invalidSsnPatterns) :
    s.length = 9 := by
  simp only [invalidSsnPatterns, List.mem_cons, List.not_mem_nil, or_false] at h
  rcases h with h | h | h | h | h | h | h | h | h | h | h <;> subst h <;> decide

/-- C9: for every record whose element name contains `SSN` and whose cleaned
value is non-null, the reasonableness check flags `invalid_ssn_length` iff
the dash/space-stripped value is not 9 characters long, flags
`invalid_ssn_pattern` iff that string is an all-same-digit 9-digit string or
the literal `123456789`, and a well-formed 9-character SSN avoiding those
patterns receives neither flag. -/
theorem c9_ssn_reasonableness (cfg : VConfig) (r : Rec) (cv : String)
    (hen : cfg.enable_value_reasonableness = true)
    (hcv : r.cleaned_value = some cv)
    (hssn : pyContains (pyUpper r.element) "SSN" = true) :
    ("invalid_ssn_length" ∈ checkValueReasonablenessFlags cfg r ↔
      (pyDropChars (fun c => c = '-' || c = ' ') cv).length ≠ 9) ∧
    ("invalid_ssn_pattern" ∈ checkValueReasonablenessFlags cfg r ↔
      ((∃ d ∈ digitChars10,
          pyDropChars (fun c => c = '-' || c = ' ') cv = ⟨List.replicate 9 d⟩) ∨
        pyDropChars (fun c => c = '-' || c = ' ') cv = "123456789")) ∧
    ((pyDropChars (fun c => c = '-' || c = ' ') cv).length = 9 ∧
      ¬((∃ d ∈ digitChars10,
          pyDropChars (fun c => c = '-' || c = ' ') cv = ⟨List.replicate 9 d⟩) ∨
        pyDropChars (fun c => c = '-' || c = ' ') cv = "123456789") →
      "invalid_ssn_length" ∉ checkValueReasonablenessFlags cfg r ∧
      "invalid_ssn_pattern" ∉ checkValueReasonablenessFlags cfg r) := by
  have hF : checkValueReasonablenessFlags cfg r =
      dateReasonFlags cfg.future_cutoff (pyUpper r.element) cv ++
      amountReasonFlags (pyUpper r.element) cv r.value ++
      pctReasonFlags (pyUpper r.element) cv ++
      ssnReasonFlags (pyUpper r.element) cv := by
    unfold checkValueReasonablenessFlags
    rw [hen, hcv]
    rfl
  have hnd : ∀ f : String, f = "invalid_ssn_length" ∨ f = "invalid_ssn_pattern" →
      f ∉ dateReasonFlags cfg.future_cutoff (pyUpper r.element) cv ∧
      f ∉ amountReasonFlags (pyUpper r.element) cv r.value ∧
      f ∉ pctReasonFlags (pyUpper r.element) cv := by
    intro f hf
    refine ⟨fun h => ?_, fun h => ?_, fun h => ?_⟩
    · rcases mem_dateReasonFlags h with h' | h' <;> rcases hf with rfl | rfl <;> simp at h'
    · rcases mem_amountReasonFlags h with h' | h' | h' <;> rcases hf with rfl | rfl <;>
        simp at h'
    · have h' := mem_pctReasonFlags h
      rcases hf with rfl | rfl <;> simp at h'
  have hmem : ∀ f : String, f = "invalid_ssn_length" ∨ f = "invalid_ssn_pattern" →
      (f ∈ checkValueReasonablenessFlags cfg r ↔
        f ∈ ssnReasonFlags (pyUpper r.element) cv) := by
    intro f hf
    rw [hF]
    simp only [List.mem_append]
    have := hnd f hf
    tauto
  have hssnF : ssnReasonFlags (pyUpper r.element) cv =
      (if (pyDropChars (fun c => c = '-' || c = ' ') cv).length ≠ 9 then
        ["invalid_ssn_length"]
      else if invalidSsnPatterns.contains (pyDropChars (fun c => c = '-' || c = ' ') cv)
      then ["invalid_ssn_pattern"] else []) := by
    unfold ssnReasonFlags
    rw [hssn]
    rfl
  have hcontains : ∀ s : String, invalidSsnPatterns.contains s = true ↔
      ((∃ d ∈ digitChars10, s = ⟨List.replicate 9 d⟩) ∨ s = "123456789") := by
    intro s
    rw [show (invalidSsnPatterns.contains s = true) ↔ s ∈ invalidSsnPatterns by
      simp [List.contains_iff_exists_mem_beq]]
    exact invalidSsnPatterns_iff s
  by_cases hlen : (pyDropChars (fun c => c = '-' || c = ' ') cv).length = 9
  · have hssnF9 : ssnReasonFlags (pyUpper r.element) cv =
        (if invalidSsnPatterns.contains (pyDropChars (fun c => c = '-' || c = ' ') cv)
         then ["invalid_ssn_pattern"] else []) := by
      rw [hssnF]
      simp [hlen]
    refine ⟨?_, ?_, ?_⟩
    · rw [hmem _ (Or.inl rfl), hssnF9]
      constructor
      · intro h
        split at h <;> simp_all
      · intro h
        exact absurd hlen h
    · rw [hmem _ (Or.inr rfl), hssnF9, ← hcontains]
      constructor
      · intro h
        split at h <;> simp_all
      · intro h
        simp only [h]
        simp
    · intro ⟨_, hnp⟩
      constructor
      · rw [hmem _ (Or.inl rfl), hssnF9]
        intro h
        split at h <;> simp_all
      · rw [hmem _ (Or.inr rfl), hssnF9]
        intro h
        split at h
        · next hc => exact hnp ((hcontains _).mp hc)
        · simp at h
  · have hssnFne : ssnReasonFlags (pyUpper r.element) cv = ["invalid_ssn_length"] := by
      rw [hssnF]
      simp [hlen]
    refine ⟨?_, ?_, ?_⟩
    · rw [hmem _ (Or.inl rfl), hssnFne]
      simp [hlen]
    · rw [hmem _ (Or.inr rfl), hssnFne]
      constructor
      · intro h
        simp at h
      · intro h
        rcases h with ⟨d, _, heq⟩ | heq
        · exact absurd (by rw [heq]; rfl) hlen
        · exact absurd (by rw [heq]; rfl) hlen
    · intro ⟨h9, _⟩
      exact absurd h9 hlen

/-- Witness for C9 at a concrete record: `"000000000"` is flagged
`invalid_ssn_pattern`. -/
theorem c9_witness :
    "invalid_ssn_pattern" ∈ checkValueReasonablenessFlags {}
      { element := "SSN", cleaned_value := some "000000000" } :=
  (c9_ssn_reasonableness {} { element := "SSN", cleaned_value := some "000000000" }
      "000000000" (by decide) (by decide) (by decide)).2.1.mpr
    (Or.inl ⟨'0', by decide, by decide⟩)

/-! ## C5: first-match-wins over the pattern list -/

/-- C5: in the per-element pattern loop of `extract_from_document`, if the
first pattern has at least one match then the element's records are exactly
the first pattern's records, and the second pattern is never consulted (the
result does not depend on it). -/
theorem c5_first_match_wins (text el : String) (P1 P2 : Pattern)
    (h : P1 text ≠ []) :
    tryPatternsFirstMatch text el [P1, P2] = extract_with_pattern text P1 el ∧
    (∀ P2' : Pattern,
      tryPatternsFirstMatch text el [P1, P2] = tryPatternsFirstMatch text el [P1, P2']) := by
  have hne : (extract_with_pattern text P1 el).isEmpty = false := by
    unfold extract_with_pattern
    cases hpt : P1 text with
    | nil => exact absurd hpt h
    | cons a as => rfl
  constructor
  · unfold tryPatternsFirstMatch
    simp only [hne]
    rfl
  · intro P2'
    unfold tryPatternsFirstMatch
    simp only [hne]
    rfl

/-- Witness for C5 at a concrete text and pattern pair. -/
theorem c5_witness :
    tryPatternsFirstMatch "t" "E" [fun _ => [⟨"v", 0, 1⟩], fun _ => [⟨"w", 2, 3⟩]] =
      extract_with_pattern "t" (fun _ => [⟨"v", 0, 1⟩]) "E" :=
  (c5_first_match_wins "t" "E" (fun _ => [⟨"v", 0, 1⟩]) (fun _ => [⟨"w", 2, 3⟩])
    (by simp)).1

/-! ## C6: per-element deduplication -/

theorem dedupKeepFirstAux_mem {α : Type} [DecidableEq α] (a : α) :
    ∀ (l seen : List α), a ∈ dedupKeepFirstAux seen l ↔ a ∈ l ∧ a ∉ seen := by
  intro l
  induction l with
  | nil => simp [dedupKeepFirstAux]
  | cons b bs ih =>
    intro seen
    simp only [dedupKeepFirstAux]
    by_cases hb : b ∈ seen
    · rw [if_pos hb, ih seen]
      constructor
      · exact fun ⟨h1, h2⟩ => ⟨List.mem_cons_of_mem b h1, h2⟩
      · rintro ⟨h1, h2⟩
        rcases List.mem_cons.mp h1 with rfl | h1
        · exact absurd hb h2
        · exact ⟨h1, h2⟩
    · rw [if_neg hb]
      constructor
      · intro h
        rcases List.mem_cons.mp h with rfl | h
        · exact ⟨List.mem_cons_self a bs, hb⟩
        · obtain ⟨h1, h2⟩ := (ih (b :: seen)).mp h
          exact ⟨List.mem_cons_of_mem b h1, fun hs => h2 (List.mem_cons_of_mem b hs)⟩
      · rintro ⟨h1, h2⟩
        rcases List.mem_cons.mp h1 with rfl | h1
        · exact List.mem_cons_self a _
        · by_cases hab : a = b
          · subst hab
            exact List.mem_cons_self a _
          · refine List.mem_cons_of_mem b ((ih (b :: seen)).mpr ⟨h1, fun hs => ?_⟩)
            rcases List.mem_cons.mp hs with h | h
            exacts [hab h, h2 h]

theorem dedupKeepFirstAux_nodup {α : Type} [DecidableEq α] :
    ∀ (seen l : List α), (dedupKeepFirstAux seen l).Nodup := by
  intro seen l
  induction l generalizing seen with
  | nil => simp [dedupKeepFirstAux]
  | cons b bs ih =>
    simp only [dedupKeepFirstAux]
    by_cases hb : b ∈ seen
    · rw [if_pos hb]; exact ih seen
    · rw [if_neg hb]
      refine List.nodup_cons.mpr ⟨fun hmem => ?_, ih (b :: seen)⟩
      exact ((dedupKeepFirstAux_mem b bs (b :: seen)).mp hmem).2 (List.mem_cons_self b seen)

theorem dedupKeepFirst_mem {α : Type} [DecidableEq α] (a : α) (l : List α) :
    a ∈ dedupKeepFirst l ↔ a ∈ l := by
  unfold dedupKeepFirst
  rw [dedupKeepFirstAux_mem]
  simp

theorem dedupByValueAux_subset {r : Rec} :
    ∀ (seen : List (Option String)) (l : List Rec), r ∈ dedupByValueAux seen l → r ∈ l := by
  intro seen l
  induction l generalizing seen with
  | nil => simp [dedupByValueAux]
  | cons b bs ih =>
    simp only [dedupByValueAux]
    by_cases hb : b.value ∈ seen
    · rw [if_pos hb]
      exact fun h => List.mem_cons_of_mem b (ih seen h)
    · rw [if_neg hb]
      intro h
      rcases List.mem_cons.mp h with rfl | h
      · exact List.mem_cons_self _ _
      · exact List.mem_cons_of_mem b (ih (b.value :: seen) h)

theorem dedupByValueAux_map_value :
    ∀ (seen : List (Option String)) (l : List Rec),
      (dedupByValueAux seen l).map (·.value) = dedupKeepFirstAux seen (l.map (·.value)) := by
  intro seen l
  induction l generalizing seen with
  | nil => rfl
  | cons b bs ih =>
    simp only [dedupByValueAux, List.map_cons, dedupKeepFirstAux]
    by_cases hb : b.value ∈ seen
    · rw [if_pos hb, if_pos hb, ih]
    · rw [if_neg hb, if_neg hb, List.map_cons, ih]

theorem dedupKeepFirstAux_all_seen {α : Type} [DecidableEq α] :
    ∀ (seen l : List α), (∀ x ∈ l, x ∈ seen) → dedupKeepFirstAux seen l = [] := by
  intro seen l
  induction l generalizing seen with
  | nil => intro; rfl
  | cons b bs ih =>
    intro h
    simp only [dedupKeepFirstAux]
    rw [if_pos (h b (List.mem_cons_self b bs))]
    exact ih seen (fun x hx => h x (List.mem_cons_of_mem b hx))

theorem dedupKeepFirstAux_const {α : Type} [DecidableEq α] (v : α) :
    ∀ (seen l : List α), (∀ x ∈ l, x = v) → l ≠ [] → v ∉ seen →
      dedupKeepFirstAux seen l = [v] := by
  intro seen l
  induction l generalizing seen with
  | nil => intro _ h; exact absurd rfl h
  | cons b bs _ =>
    intro hall _ hv
    have hb : b = v := hall b (List.mem_cons_self b bs)
    simp only [dedupKeepFirstAux, hb]
    rw [if_neg hv]
    rw [dedupKeepFirstAux_all_seen (v :: seen) bs
      (fun x hx => by
        rw [hall x (List.mem_cons_of_mem b hx)]
        exact List.mem_cons_self v seen)]

theorem flatMap_filter_single (l : List String) (g : String → List Rec) (e : String)
    (hg : ∀ e' ∈ l, ∀ r ∈ g e', r.element = e')
    (hnd : l.Nodup) (he : e ∈ l) :
    (l.flatMap g).filter (fun r => r.element = e) = g e := by
  induction l with
  | nil => cases he
  | cons a as ih =>
    have hnd' := List.nodup_cons.mp hnd
    simp only [List.flatMap_cons, List.filter_append]
    rcases List.mem_cons.mp he with rfl | hein
    · have h1 : (g e).filter (fun r => r.element = e) = g e :=
        List.filter_eq_self.mpr (fun r hr => by
          simp [hg e (List.mem_cons_self e as) r hr])
      have h2 : (as.flatMap g).filter (fun r => r.element = e) = [] := by
        apply List.filter_eq_nil_iff.mpr
        intro r hr
        obtain ⟨e', he', hre⟩ := List.mem_flatMap.mp hr
        have : r.element = e' := hg e' (List.mem_cons_of_mem e he') r hre
        simp only [this, decide_eq_true_eq]
        intro hee
        exact hnd'.1 (hee ▸ he')
      rw [h1, h2, List.append_nil]
    · have hae : a ≠ e := fun hc => hnd'.1 (hc ▸ hein)
      have h1 : (g a).filter (fun r => r.element = e) = [] := by
        apply List.filter_eq_nil_iff.mpr
        intro r hr
        have : r.element = a := hg a (List.mem_cons_self a as) r hr
        simp [this, hae]
      rw [h1, List.nil_append]
      exact ih (fun e' he' => hg e' (List.mem_cons_of_mem a he')) hnd'.2 hein

/-- The records `deduplicate_extractions` keeps for element `e` are exactly
that element's group output: its first record if no value is non-null, else
the first record of each distinct value. -/
theorem dedup_filter_eq (extractions : List Rec) (e : String)
    (he : e ∈ extractions.map (·.element)) :
    (deduplicate_extractions extractions).filter (fun r => r.element = e) =
      (let grp := extractions.filter (fun r => r.element = e)
       let nonNull := grp.filter (fun r => r.value.isSome)
       if nonNull.isEmpty then grp.take 1 else dedupByValue nonNull) := by
  unfold deduplicate_extractions
  apply flatMap_filter_single
  · intro e' _ r hr
    dsimp only at hr
    by_cases hnn : (((extractions.filter (fun x => x.element = e')).filter
        (fun x => x.value.isSome)).isEmpty : Bool)
    · rw [if_pos hnn] at hr
      have hr' := List.take_subset 1 _ hr
      simpa using (List.mem_filter.mp hr').2
    · rw [if_neg hnn] at hr
      have hr' := dedupByValueAux_subset _ _ hr
      have hr'' := (List.mem_filter.mp hr').1
      simpa using (List.mem_filter.mp hr'').2
  · exact dedupKeepFirstAux_nodup _ _
  · rw [dedupKeepFirst_mem]
    exact he

/-- C6: within one document's extractions, for each present element: if no
record of that element has a value, exactly one (null) record is kept; if
non-null values exist, exactly one record per distinct non-null value is kept
(so all-identical values collapse to a single record and distinct conflicting
values each survive). -/
theorem c6_deduplicate_extractions (extractions : List Rec) (e : String)
    (he : e ∈ extractions.map (·.element)) :
    ((extractions.filter (fun r => r.element = e)).filter (fun r => r.value.isSome) = [] →
      ((deduplicate_extractions extractions).filter (fun r => r.element = e)).map (·.value)
        = [none]) ∧
    ((extractions.filter (fun r => r.element = e)).filter (fun r => r.value.isSome) ≠ [] →
      ((deduplicate_extractions extractions).filter (fun r => r.element = e)).map (·.value)
        = dedupKeepFirst
            (((extractions.filter (fun r => r.element = e)).filter
              (fun r => r.value.isSome)).map (·.value))) ∧
    (∀ v : String,
      (extractions.filter (fun r => r.element = e)).filter (fun r => r.value.isSome) ≠ [] →
      (∀ r ∈ (extractions.filter (fun r => r.element = e)).filter (fun r => r.value.isSome),
        r.value = some v) →
      ((deduplicate_extractions extractions).filter (fun r => r.element = e)).length = 1) := by
  have hkept := dedup_filter_eq extractions e he
  have hgrpne : extractions.filter (fun r => r.element = e) ≠ [] := by
    obtain ⟨r, hr, hre⟩ := List.mem_map.mp he
    intro hnil
    have : r ∈ extractions.filter (fun x => x.element = e) :=
      List.mem_filter.mpr ⟨hr, by simp [hre]⟩
    rw [hnil] at this
    cases this
  have hb : (extractions.filter (fun r => r.element = e)).filter
        (fun r => r.value.isSome) ≠ [] →
      ((deduplicate_extractions extractions).filter (fun r => r.element = e)).map (·.value)
        = dedupKeepFirst
            (((extractions.filter (fun r => r.element = e)).filter
              (fun r => r.value.isSome)).map (·.value)) := by
    intro hnn
    rw [hkept]
    dsimp only
    rw [if_neg (by simpa [List.isEmpty_iff] using hnn)]
    exact dedupByValueAux_map_value [] _
  refine ⟨?_, hb, ?_⟩
  · intro hnn
    rw [hkept]
    dsimp only
    rw [if_pos (by simp [List.isEmpty_iff, hnn])]
    cases hgrp : extractions.filter (fun r => r.element = e) with
    | nil => exact absurd hgrp hgrpne
    | cons g0 gs =>
      have hg0 : g0.value = none := by
        have hg0m : g0 ∈ extractions.filter (fun r => r.element = e) := by
          rw [hgrp]; exact List.mem_cons_self g0 gs
        have h0 := List.filter_eq_nil_iff.mp hnn g0 hg0m
        cases hv : g0.value with
        | none => rfl
        | some x => rw [hv] at h0; simp at h0
      simp [hg0]
  · intro v hnn hall
    have hmap := hb hnn
    have hconst : dedupKeepFirst
        (((extractions.filter (fun r => r.element = e)).filter
          (fun r => r.value.isSome)).map (·.value)) = [some v] := by
      unfold dedupKeepFirst
      apply dedupKeepFirstAux_const (some v)
      · intro x hx
        obtain ⟨r, hr, hrx⟩ := List.mem_map.mp hx
        rw [← hrx]
        exact hall r hr
      · simpa using hnn
      · simp
    have := congrArg List.length hmap
    rw [hconst] at this
    simpa using this

/-- Witness for C6 at a concrete document: two identical `DOB` values
collapse to a single record. -/
theorem c6_witness :
    ((deduplicate_extractions
        [{ element := "DOB", value := some "01/01/1990" },
         { element := "DOB", value := some "01/01/1990" }]).filter
      (fun r => r.element = "DOB")).length = 1 :=
  (c6_deduplicate_extractions
      [{ element := "DOB", value := some "01/01/1990" },
       { element := "DOB", value := some "01/01/1990" }] "DOB" (by decide)).2.2
    "01/01/1990" (by decide) (by decide)

/-! ## C8: extraction_order / extraction_position invariants -/

/-- C8 counterexample: after the duplicate-alias mapping `DOB → SDOB`, the
renamed record keeps its original `extraction_order` 2, so the alias
element's orders are `[2]`, not a contiguous sequence starting at 1. -/
theorem c8_counterexample :
    ((apply_duplicate_mappings [("DOB", "SDOB")]
        [{ element := "DOB", value := some "a", extraction_order := some 1 },
         { element := "DOB", value := some "b", extraction_order := some 2 }]).filter
      (fun r => r.element = "SDOB")).map (·.extraction_order) = [some 2] ∧
    ¬ (((apply_duplicate_mappings [("DOB", "SDOB")]
        [{ element := "DOB", value := some "a", extraction_order := some 1 },
         { element := "DOB", value := some "b", extraction_order := some 2 }]).filter
      (fun r => r.element = "SDOB")).map (·.extraction_order) =
      (List.range' 1 (((apply_duplicate_mappings [("DOB", "SDOB")]
        [{ element := "DOB", value := some "a", extraction_order := some 1 },
         { element := "DOB", value := some "b", extraction_order := some 2 }]).filter
      (fun r => r.element = "SDOB")).map (·.extraction_order)).length).map some) := by
  decide

theorem extractNamePair_orders (sa so pt : String) :
    ∀ (ms : List RawMatch) (counter : Nat),
      ((extractNamePair sa so pt ms counter).1.map (·.extraction_order) =
        (List.range' counter (extractNamePair sa so pt ms counter).1.length).map some) ∧
      (extractNamePair sa so pt ms counter).2 =
        counter + (extractNamePair sa so pt ms counter).1.length := by
  intro ms
  induction ms with
  | nil => intro counter; exact ⟨rfl, rfl⟩
  | cons m rest ih =>
    intro counter
    simp only [extractNamePair]
    by_cases hv : (pyStrip m.value).length ≥ 2
    · rw [if_pos hv]
      obtain ⟨ih1, ih2⟩ := ih (counter + 1)
      constructor
      · simp only [List.map_cons, List.length_cons, List.range'_succ]
        rw [ih1]
      · simp only [List.length_cons, ih2]
        omega
    · rw [if_neg hv]
      exact ih counter

theorem extract_name_go_orders (text : String) (namePrefixes : List String)
    (find : NameFinder) :
    ∀ (pairs : List (Nat × String × String)) (counter : Nat),
      (extract_name.go text namePrefixes find pairs counter).map (·.extraction_order) =
        (List.range' counter
          (extract_name.go text namePrefixes find pairs counter).length).map some := by
  intro pairs
  induction pairs with
  | nil => intro counter; rfl
  | cons p ps ih =>
    intro counter
    obtain ⟨idx, sa, so⟩ := p
    simp only [extract_name.go]
    obtain ⟨h1, h2⟩ := extractNamePair_orders sa so (namePrefixes.getD idx "Name")
      (find sa so text) counter
    rw [List.map_append, List.length_append, h1, ih _, h2, ← List.map_append]
    congr 1
    simp [Nat.add_comm]

/-- C8 (amended): `extract_with_pattern` numbers an element's records
1, 2, … in pattern-scan order and copies the matches' non-decreasing
positions; `extract_name` numbers the NAME records 1, 2, … across all anchor
pairs; and the duplicate-alias rename leaves every `extraction_order`
unchanged (so a renamed alias element's orders begin at 2, not 1). -/
theorem c8_amended (text el : String) (pat : Pattern)
    (hsorted : List.Chain' (fun a b : RawMatch => a.start ≤ b.start) (pat text)) :
    ((extract_with_pattern text pat el).map (·.extraction_order) =
      (List.range' 1 (extract_with_pattern text pat el).length).map some) ∧
    List.Chain' (fun a b : Int => a ≤ b)
      ((extract_with_pattern text pat el).filterMap (·.extraction_position)) ∧
    (∀ (startAnchors stopAnchors namePrefixes : List String) (find : NameFinder),
      (extract_name text startAnchors stopAnchors namePrefixes find).map
          (·.extraction_order) =
        (List.range' 1
          (extract_name text startAnchors stopAnchors namePrefixes find).length).map some) ∧
    (∀ (mappings : List (String × String)) (recs : List Rec),
      (apply_duplicate_mappings mappings recs).map (·.extraction_order) =
        recs.map (·.extraction_order)) := by
  have horders : ∀ (l : List RawMatch),
      (l.enum.map (fun p : Nat × RawMatch => some (p.1 + 1)) : List (Option Nat)) =
        (List.range' 1 l.length).map some := by
    intro l
    rw [show (fun p : Nat × RawMatch => some (p.1 + 1)) =
        ((fun o : Nat => some (o + 1)) ∘ Prod.fst) from rfl,
      ← List.map_map, List.enum_map_fst, List.range'_eq_map_range, List.map_map]
    apply List.map_congr_left
    intro a _
    simp [Nat.add_comm]
  refine ⟨?_, ?_, ?_, ?_⟩
  · unfold extract_with_pattern
    rw [List.map_map, List.length_map, List.enum_length]
    exact horders (pat text)
  · unfold extract_with_pattern
    rw [List.filterMap_map]
    rw [show ((fun r : Rec => r.extraction_position) ∘ (fun p : Nat × RawMatch =>
        ({ element := el, value := some p.2.value, extraction_order := some (p.1 + 1),
           extraction_position := some p.2.start, end_position := some p.2.stop } : Rec))) =
        (some ∘ ((fun m : RawMatch => m.start) ∘ Prod.snd)) from rfl]
    rw [show (some ∘ ((fun m : RawMatch => m.start) ∘ Prod.snd) :
        Nat × RawMatch → Option Int) =
        (some ∘ (fun p : Nat × RawMatch => ((fun m : RawMatch => m.start) ∘ Prod.snd) p))
      from rfl]
    rw [List.filterMap_eq_map]
    rw [show ((fun p : Nat × RawMatch => ((fun m : RawMatch => m.start) ∘ Prod.snd) p)) =
        ((fun m : RawMatch => m.start) ∘ Prod.snd) from rfl]
    rw [← List.map_map, List.enum_map_snd, List.chain'_map]
    exact hsorted
  · intro startAnchors stopAnchors namePrefixes find
    unfold extract_name
    exact extract_name_go_orders text namePrefixes find
      ((startAnchors.zip stopAnchors).enum) 1
  · intro mappings recs
    unfold apply_duplicate_mappings
    by_cases hm : mappings.isEmpty
    · rw [if_pos hm]
    · rw [if_neg hm, List.map_map]
      apply List.map_congr_left
      intro ext _
      cases halist : alistLookup ext.element mappings with
      | none => simp [halist]
      | some newEl =>
        cases ho : ext.extraction_order with
        | none => simp [halist, ho]
        | some o =>
          by_cases h2 : o ≥ 2
          · simp [halist, ho, h2]
          · simp [halist, ho, h2]

/-- Witness for the amended C8 at a concrete pattern whose two matches occur
at increasing positions. -/
theorem c8_witness :
    (extract_with_pattern "t" (fun _ => [⟨"a", 0, 1⟩, ⟨"b", 5, 6⟩]) "E").map
        (·.extraction_order) =
      (List.range' 1 (extract_with_pattern "t"
        (fun _ => [⟨"a", 0, 1⟩, ⟨"b", 5, 6⟩]) "E").length).map some :=
  (c8_amended "t" "E" (fun _ => [⟨"a", 0, 1⟩, ⟨"b", 5, 6⟩])
    (List.chain'_cons.mpr ⟨by decide, List.chain'_singleton _⟩)).1

/-! ## C2: two-digit-year cutover and date formatting -/

/-- C2: whenever `clean_date` accepts a raw string, the parsed date's year is
shifted back 100 years exactly when it exceeds 2027 (years ≤ 2027 are kept),
the output is the zero-padded `MM/DD/YYYY` rendering of that date, and
unparsable input yields `None`; in particular `"01/15/35"` cleans to
`"01/15/1935"` and `"01/15/26"` to `"01/15/2026"`. -/
theorem c2_clean_date_cutover :
    (∀ s out, clean_date s = some out →
      ∃ p : PDate,
        strptimeFirst (normalizeSeparators (pyStrip s)).data cleanDateFormats = some p ∧
        ((p.y ≤ 2027 ∧ out = formatMMDDYYYY p) ∨
         (p.y > 2027 ∧ out = formatMMDDYYYY ⟨p.y - 100, p.m, p.d⟩))) ∧
    clean_date "01/15/35" = some "01/15/1935" ∧
    clean_date "01/15/26" = some "01/15/2026" ∧
    (∀ s, strptimeFirst (normalizeSeparators (pyStrip s)).data cleanDateFormats = none →
      clean_date s = none) := by
  refine ⟨?_, by decide, by decide, ?_⟩
  · intro s out hout
    unfold clean_date at hout
    by_cases hs : s = ""
    · rw [if_pos hs] at hout
      cases hout
    · rw [if_neg hs] at hout
      dsimp only at hout
      cases hp : strptimeFirst (normalizeSeparators (pyStrip s)).data cleanDateFormats with
      | none => rw [hp] at hout; cases hout
      | some p =>
        rw [hp] at hout
        dsimp only at hout
        refine ⟨p, rfl, ?_⟩
        by_cases hy : p.y > 2027
        · rw [if_pos hy] at hout
          cases hmk : mkDate (p.y - 100) p.m p.d with
          | none => rw [hmk] at hout; cases hout
          | some p' =>
            rw [hmk] at hout
            have hp' : p' = ⟨p.y - 100, p.m, p.d⟩ := by
              unfold mkDate at hmk
              by_cases hva : (1 ≤ p.y - 100 && p.y - 100 ≤ 9999 && 1 ≤ p.m && p.m ≤ 12 &&
                  1 ≤ p.d && p.d ≤ daysInMonth (p.y - 100) p.m : Bool)
              · rw [if_pos hva] at hmk
                exact (Option.some_inj.mp hmk).symm
              · rw [if_neg hva] at hmk
                cases hmk
            right
            exact ⟨hy, by rw [← hp']; exact (Option.some_inj.mp hout).symm⟩
        · rw [if_neg hy] at hout
          left
          exact ⟨Nat.le_of_not_lt hy, (Option.some_inj.mp hout).symm⟩
  · intro s hp
    unfold clean_date
    by_cases hs : s = ""
    · rw [if_pos hs]
    · rw [if_neg hs]
      dsimp only
      rw [hp]

/-- Witness for C2: instantiating the acceptance clause at `"01/15/35"`. -/
theorem c2_witness :
    ∃ p : PDate,
      strptimeFirst (normalizeSeparators (pyStrip "01/15/35")).data cleanDateFormats =
        some p ∧
      ((p.y ≤ 2027 ∧ "01/15/1935" = formatMMDDYYYY p) ∨
       (p.y > 2027 ∧ "01/15/1935" = formatMMDDYYYY ⟨p.y - 100, p.m, p.d⟩)) :=
  c2_clean_date_cutover.1 "01/15/35" "01/15/1935" (by decide)

/-! ## C3: percentage normalization -/

/-- C3 counterexample: `TAX_RATE` resolves to the percentage cleaner, yet the
raw value `"50"` (no `%` sign) is routed to the decimal cleaner and cleans to
`"50.0"`, not to the divided-by-100 value `"0.5"` the claim requires. -/
theorem c3_counterexample :
    get_cleaner_type "TAX_RATE" = "percentage" ∧
    clean_value "50" "TAX_RATE" = some "50.0" ∧
    clean_value "50" "TAX_RATE" ≠ some "0.5" := by
  decide

/-- Dividing an exact decimal by 100 divides its value by 100. -/
theorem Dec.div100_val (d : Dec) : d.div100.val = d.val / 100 := by
  unfold Dec.val Dec.div100
  rw [pow_add]
  push_cast
  ring

/-- C3 (amended): for an element of percentage type, a raw value containing
`%` is cleaned by `clean_percentage` — strip `%`/whitespace, parse, divide
the value by exactly 100, print — with `"50%" → "0.5"` and
`"12.5%" → "0.125"`, and null on parse failure; a raw value without `%` is
cleaned by the decimal cleaner instead (no division). -/
theorem c3_amended (raw element : String)
    (hty : get_cleaner_type element = "percentage") (hraw : raw ≠ "") :
    (pyContains raw "%" = true →
      clean_value raw element = clean_percentage raw ∧
      (∀ d, pyFloat (pyDropChars (fun c => c = '%' || pyIsSpace c) (pyStrip raw)) = some d →
        clean_percentage raw = some (pyRepr d.div100) ∧ d.div100.val = d.val / 100) ∧
      (pyFloat (pyDropChars (fun c => c = '%' || pyIsSpace c) (pyStrip raw)) = none →
        clean_percentage raw = none)) ∧
    (pyContains raw "%" = false →
      clean_value raw element = clean_decimal raw) ∧
    clean_value "50%" "TAX_RATE" = some "0.5" ∧
    clean_value "12.5%" "TAX_RATE" = some "0.125" := by
  have hroute : clean_value raw element =
      (if pyContains raw "%" then clean_percentage raw else clean_decimal raw) := by
    unfold clean_value
    rw [if_neg hraw, hty]
    rfl
  refine ⟨?_, ?_, by decide, by decide⟩
  · intro hpct
    rw [hroute, if_pos hpct]
    refine ⟨rfl, ?_, ?_⟩
    · intro d hd
      constructor
      · unfold clean_percentage
        rw [if_neg hraw]
        dsimp only
        rw [hd]
      · exact Dec.div100_val d
    · intro hd
      unfold clean_percentage
      rw [if_neg hraw]
      dsimp only
      rw [hd]
  · intro hpct
    rw [hroute, if_neg (by simp [hpct])]

/-- Witness for the amended C3 at `"50%"` of element `TAX_RATE`. -/
theorem c3_witness :
    clean_value "50%" "TAX_RATE" = clean_percentage "50%" :=
  ((c3_amended "50%" "TAX_RATE" (by decide) (by decide)).1 (by decide)).1

/-! ## C4: dollar normalization -/

/-- C4 counterexample: `SALARY` resolves to the dollar cleaner, yet the raw
value `"-$100"` — carrying a leading minus — cleans to the positive
`"100.00"` (the parsed float is already negative and the `is_negative` branch
negates it again), not to a negative result. -/
theorem c4_counterexample :
    get_cleaner_type "SALARY" = "dollar" ∧
    clean_value "-$100" "SALARY" = some "100.00" ∧
    clean_value "-$100" "SALARY" ≠ some "-100.00" ∧
    pyContains "100.00" "-" = false := by
  decide

theorem natDigitsAux_len_le_one : ∀ (fuel n : Nat), n ≤ 9 →
    (natDigitsAux fuel n).length ≤ 1 := by
  intro fuel
  induction fuel with
  | zero => intro n _; simp [natDigitsAux]
  | succ f ih =>
    intro n hn
    match n with
    | 0 => simp [natDigitsAux]
    | Nat.succ m =>
      simp only [natDigitsAux, List.length_cons]
      have : (m + 1) / 10 = 0 := Nat.div_eq_of_lt (by omega)
      rw [this]
      have hz : (natDigitsAux f 0).length = 0 := by
        cases f <;> simp [natDigitsAux]
      omega

theorem natDigitsAux_len_le_two : ∀ (fuel n : Nat), n ≤ 99 →
    (natDigitsAux fuel n).length ≤ 2 := by
  intro fuel
  induction fuel with
  | zero => intro n _; simp [natDigitsAux]
  | succ f _ =>
    intro n hn
    match n with
    | 0 => simp [natDigitsAux]
    | Nat.succ m =>
      simp only [natDigitsAux, List.length_cons]
      have h1 : (m + 1) / 10 ≤ 9 := by omega
      have h2 := natDigitsAux_len_le_one f ((m + 1) / 10) h1
      exact Nat.add_le_add_right h2 1

theorem natDigits_len_le_two (n : Nat) (h : n ≤ 99) : (natDigits n).length ≤ 2 := by
  unfold natDigits
  by_cases h0 : n = 0
  · rw [if_pos h0]; decide
  · rw [if_neg h0]
    show ((natDigitsAux n n).reverse).length ≤ 2
    rw [List.length_reverse]
    exact natDigitsAux_len_le_two n n h

theorem padLeft_len_two (s : String) (h : s.length ≤ 2) : (padLeft s 2).length = 2 := by
  unfold padLeft
  rw [String.length_append]
  show (List.replicate (2 - s.length) '0').length + s.length = 2
  rw [List.length_replicate]
  omega

/-- The negation of an exact decimal negates its value. -/
theorem Dec.neg_val (d : Dec) : d.neg.val = -d.val := by
  unfold Dec.val Dec.neg
  push_cast
  ring

/-- `format2f` always renders with exactly two digits after the final point. -/
theorem format2f_two_decimals (d : Dec) :
    ∃ pre frac : String, format2f d = pre ++ "." ++ frac ∧ frac.length = 2 := by
  unfold format2f
  dsimp only
  refine ⟨_, _, rfl, ?_⟩
  apply padLeft_len_two
  apply natDigits_len_le_two
  have := Nat.mod_lt (roundHalfEven (d.m * 100) (10 ^ d.k)).natAbs
    (show 0 < 100 by decide)
  omega

/-- C4 (amended): for an element of dollar type, a raw value containing `$`
and no `%` is cleaned by `clean_dollar_amount`: strip `$`/commas/whitespace
and parentheses, parse the rest as a number, negate the parsed value when the
raw value contains `(` or the stripped string contains `-` (so a value whose
only sign is a minus comes out positive), and format with exactly two decimal
places; `"$1,234.56" → "1234.56"`, `"$100" → "100.00"`; unparsable input
yields null.  (Values with `%` go to the percentage cleaner and values
without `$` to the decimal cleaner.) -/
theorem c4_amended (raw element : String)
    (hty : get_cleaner_type element = "dollar") (hraw : raw ≠ "")
    (hdol : pyContains raw "$" = true) (hp : pyContains raw "%" = false) :
    clean_value raw element = clean_dollar_amount raw ∧
    (∀ v, pyFloat (pyDropChars (fun c => c = '(' || c = ')')
        (pyDropChars (fun c => c = '$' || c = ',' || pyIsSpace c) (pyStrip raw))) = some v →
      clean_dollar_amount raw = some (format2f
        (if pyContains raw "(" ||
            pyContains (pyDropChars (fun c => c = '$' || c = ',' || pyIsSpace c)
              (pyStrip raw)) "-"
         then v.neg else v)) ∧
      v.neg.val = -v.val) ∧
    (pyFloat (pyDropChars (fun c => c = '(' || c = ')')
        (pyDropChars (fun c => c = '$' || c = ',' || pyIsSpace c) (pyStrip raw))) = none →
      clean_dollar_amount raw = none) ∧
    (∀ w : Dec, ∃ pre frac : String, format2f w = pre ++ "." ++ frac ∧ frac.length = 2) ∧
    clean_value "$1,234.56" "SALARY" = some "1234.56" ∧
    clean_value "$100" "SALARY" = some "100.00" := by
  have hroute : clean_value raw element = clean_dollar_amount raw := by
    unfold clean_value
    rw [if_neg hraw, hty]
    show (if pyContains raw "%" = true then clean_percentage raw
      else if pyContains raw "$" = true then clean_dollar_amount raw
      else clean_decimal raw) = clean_dollar_amount raw
    rw [hp]
    simp [hdol]
  refine ⟨hroute, ?_, ?_, format2f_two_decimals, by decide, by decide⟩
  · intro v hv
    refine ⟨?_, Dec.neg_val v⟩
    unfold clean_dollar_amount
    rw [if_neg hraw]
    dsimp only
    rw [hv]
  · intro hv
    unfold clean_dollar_amount
    rw [if_neg hraw]
    dsimp only
    rw [hv]

/-- Witness for the amended C4 at `"$1,234.56"` of element `SALARY`. -/
theorem c4_witness :
    clean_value "$1,234.56" "SALARY" = clean_dollar_amount "$1,234.56" :=
  (c4_amended "$1,234.56" "SALARY" (by decide) (by decide) (by decide) (by decide)).1

/-! ## C7: NAME expansion into FNAME/LNAME component records -/

/-- C7: a NAME record with raw value `"John Smith"` and no anchor role
expands into exactly the two derived records `FNAME = "JOHN"` and
`LNAME = "SMITH"`, both keeping the raw value; in general `parse_name` yields
at most two components and each non-empty component becomes one derived
record sharing the original raw value. -/
theorem c7_name_expansion :
    ((clean_extractions_dataframe [{ element := "NAME", value := some "John Smith" }]
        false).map (fun r => (r.element, r.value, r.cleaned_value)) =
      [("FNAME", some "John Smith", some "JOHN"),
       ("LNAME", some "John Smith", some "SMITH")]) ∧
    (∀ (raw anchor : String) (rev : Bool), (parse_name raw anchor rev).length ≤ 2) ∧
    (∀ (row : Rec) (raw : String) (rev : Bool),
      row.value = some raw →
      pyContains (pyUpper row.element) "NAME" = true →
      raw ≠ "" →
      parse_name raw row.start_anchor rev ≠ [] →
      cleanExtractionsRow rev row =
        (parse_name raw row.start_anchor rev).map (fun c =>
          { row with element := c.1, value := some raw, cleaned_value := some c.2 })) := by
  refine ⟨by decide, ?_, ?_⟩
  · intro raw anchor rev
    unfold parse_name
    by_cases hraw : raw = ""
    · rw [if_pos hraw]
      decide
    · rw [if_neg hraw]
      dsimp only
      repeat' split
      all_goals simp
  · intro row raw rev hval hname hraw hcomps
    unfold cleanExtractionsRow
    rw [hval]
    dsimp only
    rw [if_pos (by simp [hname, hraw])]
    cases hc : parse_name raw row.start_anchor rev with
    | nil => exact absurd hc hcomps
    | cons c cs => rfl

/-- Witness for C7: the general expansion clause applied to the
`"John Smith"` NAME row. -/
theorem c7_witness :
    cleanExtractionsRow false { element := "NAME", value := some "John Smith" } =
      (parse_name "John Smith" "" false).map (fun c =>
        { ({ element := "NAME", value := some "John Smith" } : Rec) with
            element := c.1, value := some "John Smith", cleaned_value := some c.2 }) :=
  c7_name_expansion.2.2 { element := "NAME", value := some "John Smith" } "John Smith"
    false rfl (by decide) (by decide) (by decide)
